import Mathlib

/-!
Shallow embedding of the HCI transport driver in `linux/linux.go`
(package `linux` of the gatt repository).

Bytes are modelled as `Nat` (every slice entry of a Go `[]byte` is below
256; wherever a Go integer conversion could overflow we take the residue
explicitly).  Go errors are modelled as `Option String`: `none` is the
nil error, `some msg` a non-nil error carrying the fixed format string.
The external collaborators (packages `cmd`, `event`, `l2cap`, `device`)
are not part of the embedded file: their operations enter the model as
function parameters, so the theorems quantify over every behaviour those
subsystems may exhibit.
-/

namespace GattLinux

/-- HCI packet type tag `ptypeCommandPkt = 0x01` from `linux.go`. -/
def ptypeCommandPkt : Nat := 0x01

/-- HCI packet type tag `ptypeACLDataPkt = 0x02` from `linux.go`. -/
def ptypeACLDataPkt : Nat := 0x02

/-- HCI packet type tag `ptypeSCODataPkt = 0x03` from `linux.go`. -/
def ptypeSCODataPkt : Nat := 0x03

/-- HCI packet type tag `ptypeEventPkt = 0x04` from `linux.go`. -/
def ptypeEventPkt : Nat := 0x04

/-- HCI packet type tag `ptypeVendorPkt = 0xFF` from `linux.go`. -/
def ptypeVendorPkt : Nat := 0xFF

/-- Observable result of `handleCmd`: the opcode it logs and the Go error
it returns. -/
structure CmdEcho where
  loggedOpcode : Nat
  err : Option String
  deriving DecidableEq

/-- Embedding of `HCI.handleCmd`.  The Go code computes
`op := uint16(b[0]) | uint16(b[1])<<8`, logs the opcode and returns `nil`.
Indexing `b[0]` and `b[1]` panics when the payload has fewer than two
bytes, which the embedding records as `none`; `some` is a normal return.
The `% 256` residues model that Go slice entries are bytes. -/
def handleCmd : List Nat → Option CmdEcho
  | b0 :: b1 :: _ => some ⟨(b0 % 256) ||| ((b1 % 256) <<< 8), none⟩
  | _ => none

/-- Embedding of `HCI.handleSCO`: always returns the non-nil error
`fmt.Errorf("SCO packet not supported")`. -/
def handleSCO (_b : List Nat) : Option String :=
  some "SCO packet not supported"

/-- Embedding of `HCI.handleVendor`: always returns the non-nil error
`fmt.Errorf("Vendor packet not supported")`. -/
def handleVendor (_b : List Nat) : Option String :=
  some "Vendor packet not supported"

/-- One call made by `handlePacket` into a handler, with the payload it
receives (the inbound frame minus its leading tag byte). -/
inductive HandlerCall
  | cmdEcho (payload : List Nat)
  | l2cHandleL2CAP (payload : List Nat)
  | handleSCO (payload : List Nat)
  | evtDispatch (payload : List Nat)
  | handleVendor (payload : List Nat)
  deriving DecidableEq

/-- How a `handlePacket` invocation ends.  `returned logged` is a normal
return, where `logged` is the error string the dispatcher logged (the
Go function itself returns nothing, so a handler error never propagates
to its caller).  `fatalExit` is the `log.Fatalf` branch for an unknown
tag, which terminates the whole process.  `panicked` is a slice
index-out-of-range panic. -/
inductive PacketOutcome
  | returned (logged : Option String)
  | fatalExit (tag : Nat) (payload : List Nat)
  | panicked
  deriving DecidableEq

/-- The two external handlers `handlePacket` can route to, given as the
error value each returns on a payload: `l2c.HandleL2CAP` and
`evt.Dispatch` live outside the embedded file. -/
structure Externals where
  handleL2CAP : List Nat → Option String
  dispatch : List Nat → Option String

/-- Embedding of `HCI.handlePacket`: strip the first byte as the tag,
switch on it, run the selected handler, log its error if non-nil and
return.  The result pairs the outcome with the list of handler calls
made, in order. -/
def handlePacket (ext : Externals) : List Nat → PacketOutcome × List HandlerCall
  | [] => (.panicked, [])
  | t :: b =>
    if t = ptypeCommandPkt then
      match handleCmd b with
      | some r => (.returned r.err, [.cmdEcho b])
      | none => (.panicked, [.cmdEcho b])
    else if t = ptypeACLDataPkt then
      (.returned (ext.handleL2CAP b), [.l2cHandleL2CAP b])
    else if t = ptypeSCODataPkt then
      (.returned (handleSCO b), [.handleSCO b])
    else if t = ptypeEventPkt then
      (.returned (ext.dispatch b), [.evtDispatch b])
    else if t = ptypeVendorPkt then
      (.returned (handleVendor b), [.handleVendor b])
    else
      (.fatalExit t b, [])

/-- One result of `h.dev.Read`: the bytes it delivered and the Go error. -/
structure ReadRet where
  data : List Nat
  err : Option String
  deriving DecidableEq

/-- Embedding of `HCI.mainLoop` over a finite list of pending read
results.  A non-nil read error, or a zero-byte read, returns from the
loop (second component `true`); otherwise the frame is copied and
dispatched (`go h.handlePacket(p)`), recorded in the first component,
and the loop continues.  An exhausted input list means the loop is still
blocked on its next read (`false`). -/
def mainLoop : List ReadRet → List (List Nat) × Bool
  | [] => ([], false)
  | r :: rest =>
    if r.err.isSome then ([], true)
    else if r.data.length = 0 then ([], true)
    else
      match mainLoop rest with
      | (ps, t) => (r.data :: ps, t)

/-- Command parameter blocks used by the bring-up sequences, one
constructor per `cmd.CmdParam` struct literal appearing in `linux.go`,
fields in source order. -/
inductive CmdParam
  | reset
  | setEventMask (eventMask : Nat)
  | leSetEventMask (leEventMask : Nat)
  | writeSimplePairingMode (simplePairingMode : Nat)
  | writeLEHostSupported (leSupportedHost : Nat) (simultaneousLEHost : Nat)
  | writeInquiryMode (inquiryMode : Nat)
  | writePageScanType (pageScanType : Nat)
  | writeInquiryScanType (scanType : Nat)
  | writeClassOfDevice (classOfDevice : List Nat)
  | writePageTimeout (pageTimeout : Nat)
  | writeDefaultLinkPolicy (defaultLinkPolicySettings : Nat)
  | hostBufferSize (hostACLDataPacketLength : Nat)
      (hostSynchronousDataPacketLength : Nat)
      (hostTotalNumACLDataPackets : Nat)
      (hostTotalNumSynchronousDataPackets : Nat)
  deriving DecidableEq

/-- Embedding of `cmdSeq`: a command parameter paired with the expected
response bytes. -/
structure cmdSeq where
  cp : CmdParam
  exp : List Nat
  deriving DecidableEq

/-- The `expSuccess` response from `linux.go`. -/
def expSuccess : List Nat := [0x00]

/-- The vendor (Broadcom) bring-up step list `bcmResetSeq` from
`linux.go`, in source order. -/
def bcmResetSeq : List cmdSeq :=
  [⟨.writeSimplePairingMode 1, expSuccess⟩,
   ⟨.writeLEHostSupported 1 0, expSuccess⟩,
   ⟨.writeInquiryMode 2, expSuccess⟩,
   ⟨.writePageScanType 1, expSuccess⟩,
   ⟨.writeInquiryScanType 1, expSuccess⟩,
   ⟨.writeClassOfDevice [0x40, 0x02, 0x04], expSuccess⟩,
   ⟨.writePageTimeout 0x2000, expSuccess⟩,
   ⟨.writeDefaultLinkPolicy 0x5, expSuccess⟩,
   ⟨.hostBufferSize 0x1000 0xff 0x0014 0x000a, expSuccess⟩]

/-- The baseline bring-up step list `defaultResetSeq` from `linux.go`,
in source order. -/
def defaultResetSeq : List cmdSeq :=
  [⟨.reset, expSuccess⟩,
   ⟨.setEventMask 0x3dbff807fffbffff, expSuccess⟩,
   ⟨.leSetEventMask 0x000000000000001F, expSuccess⟩]

/-- One `for s in seq { if err := SendAndCheckResp(s.cp, s.exp); err != nil
{ return err } }` loop of `ResetDevice`.  `SendAndCheckResp` is the
external Command Subsystem; it is modelled as `send`, a function of the
running call number (the stateful subsystem may answer differently on
different calls) and the step.  The result pairs the steps actually
issued, in order, with the error returned. -/
def runSeq (send : Nat → cmdSeq → Option String) :
    Nat → List cmdSeq → List cmdSeq × Option String
  | _, [] => ([], none)
  | k, s :: rest =>
    match send k s with
    | some e => ([s], some e)
    | none =>
      match runSeq send (k + 1) rest with
      | (t, r) => (s :: t, r)

/-- Embedding of `HCI.ResetDevice`: run the baseline list, and on its
full success run the vendor list with the call counter continued. -/
def ResetDevice (send : Nat → cmdSeq → Option String) :
    List cmdSeq × Option String :=
  match runSeq send 0 defaultResetSeq with
  | (t, some e) => (t, some e)
  | (_, none) =>
    match runSeq send defaultResetSeq.length bcmResetSeq with
    | (t2, r) => (defaultResetSeq ++ t2, r)

/-- The references a constructed `HCI` value holds: the opened device and
the subsystems built over it (`cmd.NewCmd(d, l)`, `event.NewEvent(l)`,
`l2cap.NewL2CAP(c, d, l, maxConn)`); the model records the arguments
each external constructor receives, loggers omitted. -/
structure HCIRefs (Device : Type) where
  dev : Device
  cmd : Device
  evt : Unit
  l2c : Device × Nat
  deriving DecidableEq

/-- Embedding of `NewHCI`: try `device.NewSocket(1)`, on error fall back
to `device.NewSocket(0)`, and return `nil` (here `none`) when both fail;
otherwise build the instance over the opened device.  `NewSocket` is the
external Controller Link opener, modelled as the parameter `newSocket`. -/
def NewHCI {Device : Type} (newSocket : Nat → Except String Device)
    (maxConn : Nat) : Option (HCIRefs Device) :=
  match newSocket 1 with
  | .ok d => some ⟨d, d, (), (d, maxConn)⟩
  | .error _ =>
    match newSocket 0 with
    | .ok d => some ⟨d, d, (), (d, maxConn)⟩
    | .error _ => none

/-- The five event codes that `NewHCI` binds. -/
inductive EventCode
  | leMeta
  | disconnectionComplete
  | numberOfCompletedPkts
  | commandComplete
  | commandStatus
  deriving DecidableEq

/-- The handler callbacks `NewHCI` binds event codes to. -/
inductive EvtHandler
  | l2cHandleLEMeta
  | l2cHandleDisconnectionComplete
  | l2cHandleNumberOfCompletedPkts
  | cmdHandleComplete
  | cmdHandleStatus
  deriving DecidableEq

/-- The sequence of `e.HandleEvent(code, handler)` registrations made by
`NewHCI`, in source order. -/
def newHCIRegistrations : List (EventCode × EvtHandler) :=
  [(.leMeta, .l2cHandleLEMeta),
   (.disconnectionComplete, .l2cHandleDisconnectionComplete),
   (.numberOfCompletedPkts, .l2cHandleNumberOfCompletedPkts),
   (.commandComplete, .cmdHandleComplete),
   (.commandStatus, .cmdHandleStatus)]

/-- Modelled from the spec: the Event Subsystem's
`registerHandler(eventCode, handlerFn)` operation (package `event`, not
in the embedded file) builds the Event Routing Table by setting the
handler for the code, one handler per code, later registrations for the
same code replacing earlier ones. -/
def buildTable (regs : List (EventCode × EvtHandler)) :
    EventCode → Option EvtHandler :=
  regs.foldl (fun t p => fun c => if c = p.1 then some p.2 else t c)
    (fun _ => none)

/-! Helper lemmas about `runSeq` and `ResetDevice`. -/

theorem runSeq_all_ok (send : Nat → cmdSeq → Option String)
    (h : ∀ k s, send k s = none) :
    ∀ (l : List cmdSeq) (k : Nat), runSeq send k l = (l, none) := by
  intro l
  induction l with
  | nil => intro k; rfl
  | cons s rest ih =>
    intro k
    simp [runSeq, h, ih]

theorem runSeq_fst_of_ok (send : Nat → cmdSeq → Option String) :
    ∀ (l : List cmdSeq) (k : Nat),
      (runSeq send k l).2 = none → (runSeq send k l).1 = l := by
  intro l
  induction l with
  | nil => intro k _; rfl
  | cons s rest ih =>
    intro k h
    cases hs : send k s with
    | some e => simp [runSeq, hs] at h
    | none =>
      simp [runSeq, hs] at h ⊢
      exact ih (k + 1) h

theorem runSeq_append (send : Nat → cmdSeq → Option String)
    (l2 : List cmdSeq) :
    ∀ (l1 : List cmdSeq) (k : Nat),
      runSeq send k (l1 ++ l2) =
        if (runSeq send k l1).2 = none then
          ((runSeq send k l1).1 ++ (runSeq send (k + l1.length) l2).1,
           (runSeq send (k + l1.length) l2).2)
        else runSeq send k l1 := by
  intro l1
  induction l1 with
  | nil => intro k; simp [runSeq]
  | cons s rest ih =>
    intro k
    cases hs : send k s with
    | some e => simp [runSeq, hs]
    | none =>
      have heq := ih (k + 1)
      rw [(by omega : k + 1 + rest.length = k + (rest.length + 1))] at heq
      by_cases h2 : (runSeq send (k + 1) rest).2 = none
      · simp [runSeq, hs, heq, h2]
      · simp [runSeq, hs, heq, h2]

theorem ResetDevice_eq_runSeq (send : Nat → cmdSeq → Option String) :
    ResetDevice send = runSeq send 0 (defaultResetSeq ++ bcmResetSeq) := by
  rw [runSeq_append]
  cases h : runSeq send 0 defaultResetSeq with
  | mk t r =>
    cases r with
    | some e => simp [ResetDevice, h]
    | none =>
      have ht : t = defaultResetSeq := by
        have := runSeq_fst_of_ok send defaultResetSeq 0
        rw [h] at this
        exact this rfl
      subst ht
      simp [ResetDevice, h]

theorem runSeq_split (send : Nat → cmdSeq → Option String)
    (s : cmdSeq) (post : List cmdSeq) (e : String) :
    ∀ (pre : List cmdSeq) (k : Nat),
      (∀ j, j < pre.length → send (k + j) (pre.getD j ⟨.reset, []⟩) = none) →
      send (k + pre.length) s = some e →
      runSeq send k (pre ++ s :: post) = (pre ++ [s], some e) := by
  intro pre
  induction pre with
  | nil =>
    intro k _ hfail
    simp only [List.length_nil, Nat.add_zero] at hfail
    simp [runSeq, hfail]
  | cons p rest ih =>
    intro k hok hfail
    have hp : send k p = none := by
      have h0 := hok 0 (by simp)
      simpa [List.getD] using h0
    have hrest : ∀ j, j < rest.length →
        send (k + 1 + j) (rest.getD j ⟨.reset, []⟩) = none := by
      intro j hj
      have h1 := hok (j + 1) (by simpa using Nat.succ_lt_succ hj)
      rw [(by omega : k + (j + 1) = k + 1 + j)] at h1
      simpa [List.getD] using h1
    have hfail2 : send (k + 1 + rest.length) s = some e := by
      rw [List.length_cons, (by omega : k + (rest.length + 1) = k + 1 + rest.length)] at hfail
      exact hfail
    simp [runSeq, hp, ih (k + 1) hrest hfail2]

/-! Theorems for the claims. -/

/-- C1: `handlePacket` strips exactly the first byte of the frame and
routes the remaining payload to the handler selected by the tag:
0x01 to `handleCmd`, 0x02 to `l2c.HandleL2CAP`, 0x03 to `handleSCO`,
0x04 to `evt.Dispatch`, 0xFF to `handleVendor`; in each case the call
list is a singleton, so exactly one handler is invoked, exactly once. -/
theorem handlePacket_routes_by_tag (ext : Externals) (rest : List Nat) :
    (handlePacket ext (0x01 :: rest)).2 = [HandlerCall.cmdEcho rest] ∧
    (handlePacket ext (0x02 :: rest)).2 = [HandlerCall.l2cHandleL2CAP rest] ∧
    (handlePacket ext (0x03 :: rest)).2 = [HandlerCall.handleSCO rest] ∧
    (handlePacket ext (0x04 :: rest)).2 = [HandlerCall.evtDispatch rest] ∧
    (handlePacket ext (0xFF :: rest)).2 = [HandlerCall.handleVendor rest] := by
  refine ⟨?_, ?_, ?_, ?_, ?_⟩ <;>
    cases h : handleCmd rest <;>
      simp [handlePacket, ptypeCommandPkt, ptypeACLDataPkt,
        ptypeSCODataPkt, ptypeEventPkt, ptypeVendorPkt, h]

/-- C2: when the steps of the concatenated bring-up list decompose as
`pre ++ s :: post`, every step of `pre` succeeds at its call number and
step `s` fails with error `e` (so `s`, at 1-based position
`pre.length + 1`, is the first failing step), `ResetDevice` issues
exactly the steps `pre ++ [s]` — `pre.length + 1` calls — and returns
that error; the steps of `post` (the rest of the baseline list and,
when the failure falls in the baseline list, the entire vendor list)
are never issued. -/
theorem ResetDevice_fail_fast (send : Nat → cmdSeq → Option String)
    (pre : List cmdSeq) (s : cmdSeq) (post : List cmdSeq) (e : String)
    (hsplit : defaultResetSeq ++ bcmResetSeq = pre ++ s :: post)
    (hok : ∀ j, j < pre.length → send j (pre.getD j ⟨.reset, []⟩) = none)
    (hfail : send pre.length s = some e) :
    ResetDevice send = (pre ++ [s], some e) := by
  rw [ResetDevice_eq_runSeq, hsplit]
  exact runSeq_split send s post e pre 0 (by simpa using hok)
    (by simpa using hfail)

/-- C2 witness: with a Command Subsystem that fails exactly on its second
call, `ResetDevice` issues the first two baseline steps only and returns
the error. -/
theorem ResetDevice_fail_fast_witness :
    ResetDevice (fun k _ => if k = 1 then some "mismatch" else none) =
      ([⟨.reset, expSuccess⟩, ⟨.setEventMask 0x3dbff807fffbffff, expSuccess⟩],
       some "mismatch") := by
  have h := ResetDevice_fail_fast
    (fun k _ => if k = 1 then some "mismatch" else none)
    [⟨.reset, expSuccess⟩] ⟨.setEventMask 0x3dbff807fffbffff, expSuccess⟩
    (⟨.leSetEventMask 0x000000000000001F, expSuccess⟩ :: bcmResetSeq)
    "mismatch" rfl
    (by intro j hj; simp at hj; subst hj; rfl)
    rfl
  simpa using h

/-- C3: when the Command Subsystem reports success on every call,
`ResetDevice` issues every baseline step followed by every vendor step,
each exactly once and in list order — the vendor list starting only
after the whole baseline list has succeeded — and returns nil. -/
theorem ResetDevice_all_ok (send : Nat → cmdSeq → Option String)
    (h : ∀ k s, send k s = none) :
    ResetDevice send = (defaultResetSeq ++ bcmResetSeq, none) := by
  rw [ResetDevice_eq_runSeq]
  exact runSeq_all_ok send h (defaultResetSeq ++ bcmResetSeq) 0

/-- C3 witness: with an always-successful Command Subsystem,
`ResetDevice` issues all twelve steps in order and returns nil. -/
theorem ResetDevice_all_ok_witness :
    ResetDevice (fun _ _ => none) = (defaultResetSeq ++ bcmResetSeq, none) :=
  ResetDevice_all_ok (fun _ _ => none) (fun _ _ => rfl)

/-- C4: a frame whose tag lies outside {0x01, 0x02, 0x03, 0x04, 0xFF}
reaches the `log.Fatalf` branch: `handlePacket` ends in `fatalExit`
(the process halts, the function never returns normally) and the call
list is empty, so no handler is invoked. -/
theorem handlePacket_unknown_tag_fatal (ext : Externals) (t : Nat)
    (rest : List Nat) (h1 : t ≠ 0x01) (h2 : t ≠ 0x02) (h3 : t ≠ 0x03)
    (h4 : t ≠ 0x04) (h5 : t ≠ 0xFF) :
    handlePacket ext (t :: rest) = (.fatalExit t rest, []) := by
  simp [handlePacket, ptypeCommandPkt, ptypeACLDataPkt, ptypeSCODataPkt,
    ptypeEventPkt, ptypeVendorPkt, h1, h2, h3, h4, h5]

/-- C4 witness: tag 0x05 is outside the defined set and hits the fatal
branch with no handler call. -/
theorem handlePacket_unknown_tag_fatal_witness :
    handlePacket ⟨fun _ => none, fun _ => none⟩ [0x05, 0x0E] =
      (.fatalExit 0x05 [0x0E], []) :=
  handlePacket_unknown_tag_fatal ⟨fun _ => none, fun _ => none⟩ 0x05 [0x0E]
    (by decide) (by decide) (by decide) (by decide) (by decide)

/-- C5: an SCO-tagged (0x03) or Vendor-tagged (0xFF) frame is routed to
`handleSCO` / `handleVendor` only — never to `evt.Dispatch` or
`l2c.HandleL2CAP` — and those handlers yield the non-nil
"not supported" errors; `handlePacket` returns normally, merely logging
the error, so it is not propagated past the dispatcher. -/
theorem handlePacket_sco_vendor_unsupported (ext : Externals)
    (rest : List Nat) :
    handlePacket ext (0x03 :: rest) =
      (.returned (some "SCO packet not supported"),
       [HandlerCall.handleSCO rest]) ∧
    handlePacket ext (0xFF :: rest) =
      (.returned (some "Vendor packet not supported"),
       [HandlerCall.handleVendor rest]) ∧
    handleSCO rest = some "SCO packet not supported" ∧
    handleVendor rest = some "Vendor packet not supported" := by
  refine ⟨?_, ?_, rfl, rfl⟩ <;>
    simp [handlePacket, ptypeCommandPkt, ptypeACLDataPkt, ptypeSCODataPkt,
      ptypeEventPkt, ptypeVendorPkt, handleSCO, handleVendor]

/-- C6: when every read before position `pre.length` succeeds with a
non-empty buffer and the read at that position returns an error or zero
bytes, `mainLoop` dispatches exactly the earlier frames, dispatches
nothing for the failing read, issues no further read (the results in
`rest` are never examined) and terminates permanently. -/
theorem mainLoop_stops_on_bad_read (pre : List ReadRet) (bad : ReadRet)
    (rest : List ReadRet)
    (hpre : ∀ r ∈ pre, r.err = none ∧ r.data ≠ [])
    (hbad : bad.err ≠ none ∨ bad.data = []) :
    mainLoop (pre ++ bad :: rest) = (pre.map ReadRet.data, true) := by
  induction pre with
  | nil =>
    rcases hbad with h | h
    · have : bad.err.isSome := Option.isSome_iff_ne_none.mpr h
      simp [mainLoop, this]
    · cases he : bad.err with
      | some e => simp [mainLoop, he]
      | none => simp [mainLoop, he, h]
  | cons r pre ih =>
    have hr := hpre r (by simp)
    have hrest : ∀ x ∈ pre, x.err = none ∧ x.data ≠ [] := by
      intro x hx
      exact hpre x (by simp [hx])
    have hlen : r.data.length ≠ 0 := by
      simpa [List.length_eq_zero] using hr.2
    simp [mainLoop, hr.1, hlen, ih hrest]

/-- C6 witness: one good read, then a zero-byte read, then a further
pending result: only the first frame is dispatched and the loop ends. -/
theorem mainLoop_stops_on_bad_read_witness :
    mainLoop [⟨[0x04, 0x0E], none⟩, ⟨[], none⟩, ⟨[0x02, 0x01], none⟩] =
      ([[0x04, 0x0E]], true) := by
  have h := mainLoop_stops_on_bad_read [⟨[0x04, 0x0E], none⟩] ⟨[], none⟩
    [⟨[0x02, 0x01], none⟩]
    (by intro r hr; simp at hr; subst hr; exact ⟨rfl, by decide⟩)
    (Or.inr rfl)
  simpa using h

/-- C7: on a Command payload of at least two bytes, `handleCmd` returns
normally with nil error, logging the opcode decoded little-endian
(low byte first, `b0 ||| (b1 <<< 8)`); moreover on every payload on
which it returns at all, the returned error is nil, so the observer
never fails, and it calls no other subsystem. -/
theorem handleCmd_decodes_and_never_fails (b0 b1 : Nat) (rest : List Nat)
    (h0 : b0 < 256) (h1 : b1 < 256) :
    handleCmd (b0 :: b1 :: rest) = some ⟨b0 ||| (b1 <<< 8), none⟩ ∧
    ∀ b r, handleCmd b = some r → r.err = none := by
  constructor
  · simp [handleCmd, Nat.mod_eq_of_lt h0, Nat.mod_eq_of_lt h1]
  · intro b r h
    match b with
    | [] => simp [handleCmd] at h
    | [x] => simp [handleCmd] at h
    | x :: y :: t =>
      simp [handleCmd] at h
      rw [← h]

/-- C7 witness: payload `[0x0E, 0x20, 0x01]` decodes to opcode
`0x0E ||| (0x20 <<< 8) = 0x200E` with nil error. -/
theorem handleCmd_decodes_witness :
    handleCmd [0x0E, 0x20, 0x01] = some ⟨0x0E ||| (0x20 <<< 8), none⟩ :=
  (handleCmd_decodes_and_never_fails 0x0E 0x20 [0x01]
    (by decide) (by decide)).1

/-- C8: `NewHCI` makes exactly five registrations, binding each of the
five distinct event codes to exactly one handler — the three L2CAP
callbacks and the two Command Subsystem correlation callbacks — and the
resulting routing table maps each code to its handler. -/
theorem newHCI_event_wiring :
    newHCIRegistrations.length = 5 ∧
    (newHCIRegistrations.map Prod.fst).Nodup ∧
    buildTable newHCIRegistrations .leMeta = some .l2cHandleLEMeta ∧
    buildTable newHCIRegistrations .disconnectionComplete =
      some .l2cHandleDisconnectionComplete ∧
    buildTable newHCIRegistrations .numberOfCompletedPkts =
      some .l2cHandleNumberOfCompletedPkts ∧
    buildTable newHCIRegistrations .commandComplete =
      some .cmdHandleComplete ∧
    buildTable newHCIRegistrations .commandStatus =
      some .cmdHandleStatus := by
  refine ⟨rfl, by decide, rfl, rfl, rfl, rfl, rfl⟩

/-- C9: `handleCmd` is not total: it returns normally exactly on payloads
of at least two bytes; on shorter payloads the unconditional accesses
`b[0]`, `b[1]` go out of bounds. -/
theorem handleCmd_partial_below_two_bytes (b : List Nat) :
    (handleCmd b).isSome ↔ 2 ≤ b.length := by
  match b with
  | [] => simp [handleCmd]
  | [x] => simp [handleCmd]
  | x :: y :: t => simp [handleCmd]

/-- C10: `NewHCI` returns `none` exactly when opening the controller link
fails for device id 1 and then for device id 0; when either open
succeeds it returns an instance whose device, command, event and L2CAP
references are all set over the opened device. -/
theorem newHCI_open_fallback {Device : Type}
    (newSocket : Nat → Except String Device) (maxConn : Nat) :
    (∀ d, newSocket 1 = .ok d →
      NewHCI newSocket maxConn = some ⟨d, d, (), (d, maxConn)⟩) ∧
    (∀ e d, newSocket 1 = .error e → newSocket 0 = .ok d →
      NewHCI newSocket maxConn = some ⟨d, d, (), (d, maxConn)⟩) ∧
    (∀ e1 e0, newSocket 1 = .error e1 → newSocket 0 = .error e0 →
      NewHCI newSocket maxConn = none) := by
  refine ⟨?_, ?_, ?_⟩
  · intro d h
    simp [NewHCI, h]
  · intro e d h1 h0
    simp [NewHCI, h1, h0]
  · intro e1 e0 h1 h0
    simp [NewHCI, h1, h0]

end GattLinux
